import Mathlib

/-
  Shallow embedding of the sudoku solver (src/grid.rs, src/rules.rs,
  src/technique.rs, src/types.rs, src/main.rs).

  Machine integers are modelled as Nat; u16 bitwise complement is
  modelled as XOR with 65535; all masks handled by the program stay
  below 2 to the 16.  Out-of-range indexing of the 81-cell vector
  panics in Rust; it is modelled by List.getD (read of a default cell)
  and List.set (write is a no-op), and no theorem below depends on an
  out-of-range access.
-/

-- types.rs: SResult
inductive SResult where
  | Conflict (row col : Nat)
  | Continue
  | Insoluable (row col : Nat)
  | Finished
deriving DecidableEq

-- grid.rs: SCell
inductive SCell where
  | Fixed (v : Nat)
  | Possible (m : Nat)
deriving DecidableEq

-- grid.rs: impl Default for SCell (mask 0b111_111_111_0 = 1022)
def defaultCell : SCell := SCell.Possible 1022

-- u16 bitwise complement of x (for x < 2^16), as used by remove and remove_all
def compl16 (x : Nat) : Nat := 65535 ^^^ x

-- grid.rs: SCell::has
def SCell.has : SCell → Nat → Bool
  | SCell.Fixed v, val => v == val
  | SCell.Possible f, val => (f &&& (1 <<< val)) != 0

-- grid.rs: SCell::remove.  Returns the bool result together with the
-- mutated cell (the source mutates in place).
def SCell.remove : SCell → Nat → Bool × SCell
  | SCell.Fixed v, _ => (false, SCell.Fixed v)
  | SCell.Possible f, val =>
      if f &&& (1 <<< val) == 0 then
        (true, SCell.Possible f)
      else
        (true, SCell.Possible (f &&& compl16 (1 <<< val)))

-- grid.rs: SCell::remove_all.  Returns (changed, mutated cell).
def SCell.remove_all : SCell → SCell → Bool × SCell
  | c, other =>
      let val := match other with
        | SCell.Fixed v => 1 <<< v
        | SCell.Possible v => v
      match c with
      | SCell.Fixed v => (false, SCell.Fixed v)
      | SCell.Possible f =>
          let newf := f &&& compl16 val
          if f != newf then (true, SCell.Possible newf) else (false, SCell.Possible f)

-- grid.rs: the mask handed to CellValues::new by SCell::values
def SCell.mask : SCell → Nat
  | SCell.Fixed n => 1 <<< n
  | SCell.Possible v => v

-- grid.rs: the sequence produced by the CellValues iterator: its loop
-- probes bit positions 1 through 10 in ascending order.
def SCell.values (c : SCell) : List Nat :=
  ((List.range 10).map (· + 1)).filter (fun p => (c.mask &&& (1 <<< p)) != 0)

-- u16 count_ones
def countOnes16 (n : Nat) : Nat :=
  (List.range 16).foldl (fun a i => a + ((n >>> i) &&& 1)) 0

-- grid.rs: CellValues::size_hint at pos = 0, i.e. the value of
-- values().len() right after creation (ExactSizeIterator::len).
def SCell.values_len (c : SCell) : Nat := countOnes16 c.mask

-- grid.rs: SCell::possibilities
def SCell.possibilities : SCell → Nat
  | SCell.Fixed _ => 0
  | SCell.Possible v => countOnes16 v

-- rules.rs: BOXES
def BOXES : List (List (Nat × Nat)) := [
  [(0,0),(0,1),(0,2),(1,0),(1,1),(1,2),(2,0),(2,1),(2,2)],
  [(0,3),(0,4),(0,5),(1,3),(1,4),(1,5),(2,3),(2,4),(2,5)],
  [(0,6),(0,7),(0,8),(1,6),(1,7),(1,8),(2,6),(2,7),(2,8)],
  [(3,0),(3,1),(3,2),(4,0),(4,1),(4,2),(5,0),(5,1),(5,2)],
  [(3,3),(3,4),(3,5),(4,3),(4,4),(4,5),(5,3),(5,4),(5,5)],
  [(3,6),(3,7),(3,8),(4,6),(4,7),(4,8),(5,6),(5,7),(5,8)],
  [(6,0),(6,1),(6,2),(7,0),(7,1),(7,2),(8,0),(8,1),(8,2)],
  [(6,3),(6,4),(6,5),(7,3),(7,4),(7,5),(8,3),(8,4),(8,5)],
  [(6,6),(6,7),(6,8),(7,6),(7,7),(7,8),(8,6),(8,7),(8,8)]]

-- rules.rs: Normal::boxcells (the unimplemented fall-through arms are
-- modelled as the empty list; they panic in Rust)
def boxcells (row col : Nat) : List (Nat × Nat) :=
  if row < 3 then
    (if col < 3 then BOXES.getD 0 [] else if col < 6 then BOXES.getD 1 []
     else if col < 9 then BOXES.getD 2 [] else [])
  else if row < 6 then
    (if col < 3 then BOXES.getD 3 [] else if col < 6 then BOXES.getD 4 []
     else if col < 9 then BOXES.getD 5 [] else [])
  else if row < 9 then
    (if col < 3 then BOXES.getD 6 [] else if col < 6 then BOXES.getD 7 []
     else if col < 9 then BOXES.getD 8 [] else [])
  else []

-- rules.rs: the seen list Normal::new computes for one (row, col):
-- row mates in ascending column order, then column mates in ascending
-- row order, then box cells with both coordinates different.
def buildSeen (row col : Nat) : List (Nat × Nat) :=
  ((List.range 9).filter (fun c2 => col != c2)).map (fun c2 => (row, c2)) ++
  ((List.range 9).filter (fun r2 => row != r2)).map (fun r2 => (r2, col)) ++
  (boxcells row col).filter (fun p => p.1 != row && p.2 != col)

-- rules.rs: the sees vector of Normal, indexed by row * 9 + col in
-- row-major construction order.
def seesTable : List (List (Nat × Nat)) :=
  (List.range 81).map (fun p => buildSeen (p / 9) (p % 9))

-- rules.rs: Normal::sees (flat indexing kept, so the aliasing of an
-- out-of-band column index into the next row is preserved)
def sees (row col : Nat) : List (Nat × Nat) := seesTable.getD (row * 9 + col) []

-- rules.rs: Ruleset::overlapping_houses (default method)
def overlapping_houses (house : Nat) : List Nat :=
  if house < 3 then [18, 19, 20]
  else if house < 6 then [21, 22, 23]
  else if house < 9 then [24, 25, 26]
  else if house < 12 then [18, 21, 24]
  else if house < 15 then [19, 22, 25]
  else if house < 18 then [20, 23, 26]
  else if house = 18 then [0, 1, 2, 9, 10, 11]
  else if house = 19 then [0, 1, 2, 12, 13, 14]
  else if house = 20 then [0, 1, 2, 15, 16, 17]
  else if house = 21 then [3, 4, 5, 9, 10, 11]
  else if house = 22 then [3, 4, 5, 12, 13, 14]
  else if house = 23 then [3, 4, 5, 15, 16, 17]
  else if house = 24 then [6, 7, 8, 9, 10, 11]
  else if house = 25 then [6, 7, 8, 12, 13, 14]
  else if house = 26 then [6, 7, 8, 15, 16, 17]
  else []

-- grid.rs: SGrid (the Rc<dyn Ruleset> field is the Normal ruleset in
-- every claim; its sees and overlapping_houses are the functions above)
structure SGrid where
  cells : List SCell
deriving DecidableEq

-- SGrid::new(Normal::new()) with the default cells
def defaultGrid : SGrid := ⟨List.replicate 81 defaultCell⟩

-- grid.rs: SGrid::_pos and SGrid::cell
def SGrid.cell (g : SGrid) (row col : Nat) : SCell :=
  g.cells.getD (row * 9 + col) defaultCell

-- write through cell_mut at (row, col)
def SGrid.setAt (g : SGrid) (row col : Nat) (c : SCell) : SGrid :=
  ⟨g.cells.set (row * 9 + col) c⟩

def SCell.isFixed : SCell → Bool
  | SCell.Fixed _ => true
  | SCell.Possible _ => false

-- grid.rs: SGrid::done
def SGrid.done (g : SGrid) : SResult :=
  if g.cells.all SCell.isFixed then SResult.Finished else SResult.Continue

-- grid.rs: the elimination loop of set_cell over the seen list.  The
-- removal is applied, then the bool result is checked exactly as in
-- the source (if remove reported false the loop stops Insoluable).
def elimLoop (val : Nat) : SGrid → List (Nat × Nat) → SResult × SGrid
  | g, [] => (g.done, g)
  | g, p :: rest =>
      match g.cell p.1 p.2 with
      | SCell.Fixed _ => elimLoop val g rest
      | SCell.Possible m =>
          let rc := (SCell.Possible m).remove val
          let g2 := g.setAt p.1 p.2 rc.2
          if rc.1 then elimLoop val g2 rest else (SResult.Insoluable p.1 p.2, g2)

-- grid.rs: SGrid::set_cell
def SGrid.set_cell (g : SGrid) (row col val : Nat) : SResult × SGrid :=
  match g.cell row col with
  | SCell.Fixed v =>
      if v = val then (g.done, g) else (SResult.Conflict row col, g)
  | SCell.Possible m =>
      if !(SCell.Possible m).has val then (SResult.Conflict row col, g)
      else elimLoop val (g.setAt row col (SCell.Fixed val)) (sees row col)

-- grid.rs: SGrid::row_house, col_house, box_house, house
def SGrid.row_house (g : SGrid) (row : Nat) : List SCell :=
  (List.range 9).map (fun col => g.cell row col)

def SGrid.col_house (g : SGrid) (col : Nat) : List SCell :=
  (List.range 9).map (fun row => g.cell row col)

def SGrid.box_house (g : SGrid) (b : Nat) : List SCell :=
  (BOXES.getD b []).map (fun p => g.cell p.1 p.2)

def SGrid.house (g : SGrid) (h : Nat) : List SCell :=
  if h < 9 then g.row_house h
  else if h < 18 then g.col_house (h - 9)
  else if h < 27 then g.box_house (h - 18)
  else []

-- grid.rs: SGrid::house_cell_to_row_col.  Note the column arm of the
-- source computes (cell, house - 8).
def house_cell_to_row_col (house cell : Nat) : Nat × Nat :=
  if house < 9 then (house, cell)
  else if house < 18 then (cell, house - 8)
  else if house < 27 then (BOXES.getD (house - 18) []).getD cell (0, 0)
  else (0, 0)

-- grid.rs: SGrid::set_house
def SGrid.set_house (g : SGrid) (house cell val : Nat) : SResult × SGrid :=
  let rc := house_cell_to_row_col house cell
  g.set_cell rc.1 rc.2 val

-- grid.rs: SGrid::house_cell
def SGrid.house_cell (g : SGrid) (house cell : Nat) : SCell :=
  let rc := house_cell_to_row_col house cell
  g.cell rc.1 rc.2

/-- Modelled from the spec: SCell.intersect is used by the Hidden Pair
technique but is not present under src.  Per the spec it is the
bitwise AND of both cells viable-value sets, returned as a value set. -/
def SCell.intersect (a b : SCell) : SCell :=
  SCell.Possible (a.mask &&& b.mask)

/-- Modelled from the spec: SGrid.alter_house is used by the Hidden Pair
technique but is not present under src.  Per the spec it replaces the
cell at that house offset with the new cell if different, and returns
whether it changed. -/
def SGrid.alter_house (g : SGrid) (house cell : Nat) (ncell : SCell) : Bool × SGrid :=
  let rc := house_cell_to_row_col house cell
  if g.cell rc.1 rc.2 = ncell then (false, g)
  else (true, g.setAt rc.1 rc.2 ncell)

-- technique.rs: SolveStepResult
inductive SolveStepResult where
  | Stuck
  | Acted
  | Finished
  | Failed (r : SResult)
deriving DecidableEq

-- technique.rs: NakedSingle::step, scan part.  The row-major double
-- loop stops at the first Possible cell whose values().len() is 1 and
-- takes the first enumerated value (values.next().unwrap(); an empty
-- enumeration panics in Rust and is modelled as value 0).
def cellsRowMajor : List (Nat × Nat) := (List.range 81).map (fun p => (p / 9, p % 9))

def nsScan (g : SGrid) : List (Nat × Nat) → Option (Nat × Nat × Nat)
  | [] => none
  | p :: rest =>
      match g.cell p.1 p.2 with
      | SCell.Fixed _ => nsScan g rest
      | SCell.Possible m =>
          if (SCell.Possible m).values_len == 1 then
            some (p.1, p.2, ((SCell.Possible m).values).headD 0)
          else nsScan g rest

-- technique.rs: NakedSingle::step
def naked_single_step (g : SGrid) : SolveStepResult × SGrid :=
  match nsScan g cellsRowMajor with
  | none => (SolveStepResult.Stuck, g)
  | some (r, c, v) =>
      let res := g.set_cell r c v
      match res.1 with
      | SResult.Continue => (SolveStepResult.Acted, res.2)
      | SResult.Finished => (SolveStepResult.Acted, res.2)
      | r2 => (SolveStepResult.Failed r2, res.2)

-- technique.rs: the found map built by HiddenSingle::step and
-- HiddenPair::step for one house: for a value, the ascending list of
-- offsets of the Possible cells of the house whose values() contain it.
def foundSet (content : List SCell) (v : Nat) : List Nat :=
  (List.range 9).filter (fun n =>
    match content.getD n defaultCell with
    | SCell.Fixed _ => false
    | c => (c.values).contains v)

-- technique.rs: HiddenSingle::step, scan: houses 0..27, then values
-- 1..=9, stopping at the first value held by exactly one cell.
def hiddenSingleFindIn (content : List SCell) : Option (Nat × Nat) :=
  ((List.range 9).map (· + 1)).findSome? (fun v =>
    if (foundSet content v).length == 1 then
      some ((foundSet content v).headD 0, v)
    else none)

def hiddenSingleFind (g : SGrid) : Option (Nat × Nat × Nat) :=
  (List.range 27).findSome? (fun h =>
    match hiddenSingleFindIn (g.house h) with
    | some nv => some (h, nv.1, nv.2)
    | none => none)

-- technique.rs: HiddenSingle::step.  The source discards the SResult
-- of set_house and returns Acted unconditionally.
def hidden_single_step (g : SGrid) : SolveStepResult × SGrid :=
  match hiddenSingleFind g with
  | none => (SolveStepResult.Stuck, g)
  | some hnv => (SolveStepResult.Acted, (g.set_house hnv.1 hnv.2.1 hnv.2.2).2)

-- technique.rs: NakedPair::step, inner loop over the other cells of
-- the house, applying remove_all of the snapshot cell a through
-- house_cell_mut and accumulating the changed flag.
def npApply (house a b : Nat) (ca : SCell) (g : SGrid) : Bool × SGrid :=
  (List.range 9).foldl
    (fun acc other =>
      if other == a || other == b then acc
      else
        let rc := house_cell_to_row_col house other
        let rm := (acc.2.cell rc.1 rc.2).remove_all ca
        (acc.1 || rm.1, acc.2.setAt rc.1 rc.2 rm.2))
    (false, g)

def npForB (house a : Nat) (ca : SCell) (cells : List SCell) : SGrid → List Nat → Bool × SGrid
  | g, [] => (false, g)
  | g, b :: rest =>
      if cells.getD b defaultCell == ca then
        let res := npApply house a b ca g
        if res.1 then (true, res.2) else npForB house a ca cells res.2 rest
      else npForB house a ca cells g rest

def npForA (house : Nat) (cells : List SCell) : SGrid → List Nat → Bool × SGrid
  | g, [] => (false, g)
  | g, a :: rest =>
      if (cells.getD a defaultCell).possibilities == 2 then
        let res := npForB house a (cells.getD a defaultCell) cells g (List.range' (a + 1) (8 - a))
        if res.1 then (true, res.2) else npForA house cells res.2 rest
      else npForA house cells g rest

def npHouses : SGrid → List Nat → SolveStepResult × SGrid
  | g, [] => (SolveStepResult.Stuck, g)
  | g, h :: rest =>
      let cells := g.house h
      let res := npForA h cells g (List.range 8)
      if res.1 then (SolveStepResult.Acted, res.2) else npHouses res.2 rest

-- technique.rs: NakedPair::step (houses 0..27, a in 0..8, b in a+1..9)
def naked_pair_step (g : SGrid) : SolveStepResult × SGrid :=
  npHouses g (List.range 27)

-- technique.rs: HiddenPair::step.  The loop variables a in 0..8 and
-- b in a+1..9 range over candidate values; the two offsets of the
-- matching pair are drawn from the found set (HashSet iteration order
-- is arbitrary in Rust; both offsets receive the same new cell, so the
-- ascending order used here produces the same grid); the new cell is
-- the intersection of the two snapshot cells, written back through
-- alter_house.
def hpForB (house : Nat) (content : List SCell) (a : Nat) : SGrid → List Nat → Bool × SGrid
  | g, [] => (false, g)
  | g, b :: rest =>
      if foundSet content a == foundSet content b then
        let hs := foundSet content a
        let c1 := hs.headD 0
        let c2 := (hs.drop 1).headD 0
        let ncell := (content.getD c1 defaultCell).intersect (content.getD c2 defaultCell)
        let r1 := g.alter_house house c1 ncell
        let r2 := r1.2.alter_house house c2 ncell
        if r1.1 || r2.1 then (true, r2.2) else hpForB house content a r2.2 rest
      else hpForB house content a g rest

def hpForA (house : Nat) (content : List SCell) : SGrid → List Nat → Bool × SGrid
  | g, [] => (false, g)
  | g, a :: rest =>
      if (foundSet content a).length == 2 then
        let res := hpForB house content a g (List.range' (a + 1) (8 - a))
        if res.1 then (true, res.2) else hpForA house content res.2 rest
      else hpForA house content g rest

def hpHouses : SGrid → List Nat → SolveStepResult × SGrid
  | g, [] => (SolveStepResult.Stuck, g)
  | g, h :: rest =>
      let content := g.house h
      let res := hpForA h content g (List.range 8)
      if res.1 then (SolveStepResult.Acted, res.2) else hpHouses res.2 rest

def hidden_pair_step (g : SGrid) : SolveStepResult × SGrid :=
  hpHouses g (List.range 27)

-- technique.rs: Pointing::step.  found_in_house and found_in_overlap
-- collect the (row, col) translations of the capable offsets; the
-- fewer-than-3 branch of the source has an empty body and falls
-- through; remove is applied to every overlap position not present in
-- found_in_house, accumulating its bool result into changed.
def ptFoundIn (g : SGrid) (house value : Nat) : List (Nat × Nat) :=
  (List.range 9).filterMap (fun cell =>
    if ((g.house_cell house cell).values).contains value then
      some (house_cell_to_row_col house cell)
    else none)

def ptRemove (fih : List (Nat × Nat)) (value : Nat) : SGrid → List (Nat × Nat) → Bool × SGrid
  | g, [] => (false, g)
  | g, p :: rest =>
      if fih.contains p then ptRemove fih value g rest
      else
        let rm := (g.cell p.1 p.2).remove value
        let res := ptRemove fih value (g.setAt p.1 p.2 rm.2) rest
        (rm.1 || res.1, res.2)

def ptOverlaps (value : Nat) (fih : List (Nat × Nat)) : SGrid → List Nat → Bool × SGrid
  | g, [] => (false, g)
  | g, oh :: rest =>
      let fio := ptFoundIn g oh value
      let res := ptRemove fih value g fio
      if res.1 then (true, res.2) else ptOverlaps value fih res.2 rest

def ptValues (house : Nat) : SGrid → List Nat → Bool × SGrid
  | g, [] => (false, g)
  | g, v :: rest =>
      let fih := ptFoundIn g house v
      if fih.length < 2 then ptValues house g rest
      else
        let res := ptOverlaps v fih g (overlapping_houses house)
        if res.1 then (true, res.2) else ptValues house res.2 rest

def ptHouses : SGrid → List Nat → SolveStepResult × SGrid
  | g, [] => (SolveStepResult.Stuck, g)
  | g, h :: rest =>
      let res := ptValues h g ((List.range 9).map (· + 1))
      if res.1 then (SolveStepResult.Acted, res.2) else ptHouses res.2 rest

def pointing_step (g : SGrid) : SolveStepResult × SGrid :=
  ptHouses g (List.range 27)

-- technique.rs: the post-step full-board scan of SolverSet::solve_grid
def brokenScan (g : SGrid) : Bool :=
  (List.range 9).any (fun row => (List.range 9).any (fun col =>
    (g.cell row col).values_len == 0))

-- technique.rs: SolverSet::solve_grid.  Techniques are the registered
-- step functions; the defers and actions counters do not influence the
-- result and are omitted.  The loop is given fuel to make it total:
-- none models a run that has not terminated within the fuel.  An index
-- beyond the technique list panics in Rust and is modelled as Stuck;
-- it is unreachable from the entry cursor 0.
def solve_grid : Nat → List (SGrid → SolveStepResult × SGrid) → Nat → SGrid → Option (SolveStepResult × SGrid)
  | 0, _, _, _ => none
  | fuel + 1, techs, tnum, g =>
      if g.done = SResult.Finished then some (SolveStepResult.Finished, g)
      else if tnum = techs.length then some (SolveStepResult.Stuck, g)
      else
        match techs.get? tnum with
        | none => some (SolveStepResult.Stuck, g)
        | some t =>
            match t g with
            | (SolveStepResult.Stuck, g2) =>
                if brokenScan g2 then some (SolveStepResult.Stuck, g2)
                else solve_grid fuel techs (tnum + 1) g2
            | (SolveStepResult.Acted, g2) =>
                if brokenScan g2 then some (SolveStepResult.Stuck, g2)
                else solve_grid fuel techs 0 g2
            | (r, g2) => some (r, g2)

-- technique.rs: SolverSet::full registers the five techniques in this
-- order
def full_techniques : List (SGrid → SolveStepResult × SGrid) :=
  [naked_single_step, hidden_single_step, naked_pair_step, hidden_pair_step, pointing_step]

/-
  Concrete grids used by the claim theorems below.
-/

-- a grid whose cell (0, 1) can only be 5 (mask 32 = bit 5)
def g1 : SGrid := defaultGrid.setAt 0 1 (SCell.Possible 32)

-- the default grid after fixing (0, 0) to 1
def g2c : SGrid := (defaultGrid.set_cell 0 0 1).2

-- column 0 holds Fixed 2,3,4,5,_,6,7,8,9 (rows 0..8 skipping row 4) and
-- (4, 1) is Fixed 2; the only Possible cell of column 0 is (4, 0),
-- whose candidate set has narrowed to exactly the value 1
def g3 : SGrid :=
  (((((((((defaultGrid.set_cell 4 1 2).2.set_cell 0 0 2).2.set_cell 1 0 3).2.set_cell
      2 0 4).2.set_cell 3 0 5).2.set_cell 5 0 6).2.set_cell 6 0 7).2.set_cell
      7 0 8).2.set_cell 8 0 9).2

-- column 0 holds Fixed 3..9 in rows 2..8, and (4, 1) is Fixed 1; the
-- cells (0, 0) and (1, 0) have both narrowed to the candidate pair
-- (1 and 2), a hidden pair of column house 9
def g4b : SGrid :=
  ((((((((defaultGrid.set_cell 2 0 3).2.set_cell 3 0 4).2.set_cell 4 0 5).2.set_cell
      5 0 6).2.set_cell 6 0 7).2.set_cell 7 0 8).2.set_cell 8 0 9).2.set_cell 4 1 1).2

-- g4b after one Hidden Pair step (which writes through the column
-- mapping of house_cell_to_row_col into column 1)
def g4c : SGrid := (hidden_pair_step g4b).2

-- g4c after the legal assignment of 1 to (0, 1)
def g4 : SGrid := (g4c.set_cell 0 1 1).2

-- row 0 holds the candidate sets 789, 89, then 1234567 seven times
-- (masks 896, 768, 254): values 8 and 9 of row house 0 are each
-- possible in exactly the two cells at offsets 0 and 1
def g6 : SGrid :=
  (((((((((defaultGrid.setAt 0 0 (SCell.Possible 896)).setAt 0 1
      (SCell.Possible 768)).setAt 0 2 (SCell.Possible 254)).setAt 0 3
      (SCell.Possible 254)).setAt 0 4 (SCell.Possible 254)).setAt 0 5
      (SCell.Possible 254)).setAt 0 6 (SCell.Possible 254)).setAt 0 7
      (SCell.Possible 254)).setAt 0 8 (SCell.Possible 254))

-- the default grid with candidate 1 removed from the six cells of box
-- 0 outside row 0 (mask 1020)
def g7 : SGrid :=
  ((((((defaultGrid.setAt 1 0 (SCell.Possible 1020)).setAt 1 1
      (SCell.Possible 1020)).setAt 1 2 (SCell.Possible 1020)).setAt 2 0
      (SCell.Possible 1020)).setAt 2 1 (SCell.Possible 1020)).setAt 2 2
      (SCell.Possible 1020))

-- a technique that reports Stuck after emptying the candidate set of
-- cell (0, 0); used to witness the orchestrator backstop
def breakingTech : SGrid → SolveStepResult × SGrid :=
  fun g => (SolveStepResult.Stuck, g.setAt 0 0 (SCell.Possible 0))

-- a technique that reports a failure; used to witness the propagation
-- of Failed out of solve_grid
def failingTech : SGrid → SolveStepResult × SGrid :=
  fun g => (SolveStepResult.Failed (SResult.Conflict 0 0), g)

/-
  Helper lemmas shared by the claim theorems.
-/

theorem done_ne_conflict (g : SGrid) (r c : Nat) : g.done ≠ SResult.Conflict r c := by
  unfold SGrid.done
  split <;> simp

theorem remove_possible_fst (m val : Nat) : ((SCell.Possible m).remove val).1 = true := by
  rw [SCell.remove]
  split <;> rfl

theorem elimLoop_ne_conflict (val : Nat) (l : List (Nat × Nat)) :
    ∀ g r c, (elimLoop val g l).1 ≠ SResult.Conflict r c := by
  induction l with
  | nil =>
      intro g r c
      simpa [elimLoop] using done_ne_conflict g r c
  | cons p rest ih =>
      intro g r c
      cases h : g.cell p.1 p.2 with
      | Fixed v =>
          simp only [elimLoop, h]
          exact ih g r c
      | Possible m =>
          simp only [elimLoop, h, remove_possible_fst, if_true]
          exact ih _ r c

/-- C8: set_cell(row, col, val) returns Conflict(row, col) exactly when
the target cell is Fixed to a value different from val or is Possible
without val in its candidate set; whenever it returns Conflict the grid
is unchanged; and a call on a cell already Fixed to val mutates nothing
and returns the done() status. -/
theorem C8_set_cell_conflict (g : SGrid) (row col val : Nat) :
    ((g.set_cell row col val).1 = SResult.Conflict row col ↔
      (∃ w, g.cell row col = SCell.Fixed w ∧ w ≠ val) ∨
      (∃ m, g.cell row col = SCell.Possible m ∧ (SCell.Possible m).has val = false))
    ∧ ((g.set_cell row col val).1 = SResult.Conflict row col →
        (g.set_cell row col val).2 = g)
    ∧ (g.cell row col = SCell.Fixed val → g.set_cell row col val = (g.done, g)) := by
  cases h : g.cell row col with
  | Fixed v =>
      have hs : g.set_cell row col val =
          (if v = val then (g.done, g) else (SResult.Conflict row col, g)) := by
        rw [SGrid.set_cell, h]
      by_cases hv : v = val
      · subst hv
        rw [if_pos rfl] at hs
        refine ⟨⟨?_, ?_⟩, ?_, ?_⟩
        · intro hc
          rw [hs] at hc
          exact absurd hc (done_ne_conflict g row col)
        · rintro (⟨w, hw, hne⟩ | ⟨m, hm, _⟩)
          · injection hw with hw2
            exact absurd hw2.symm hne
          · exact SCell.noConfusion hm
        · intro hc
          rw [hs] at hc
          exact absurd hc (done_ne_conflict g row col)
        · intro _
          exact hs
      · rw [if_neg hv] at hs
        refine ⟨⟨?_, ?_⟩, ?_, ?_⟩
        · intro _
          exact Or.inl ⟨v, rfl, hv⟩
        · intro _
          rw [hs]
        · intro _
          rw [hs]
        · intro hf
          injection hf with hf2
          exact absurd hf2 hv
  | Possible m =>
      have hs : g.set_cell row col val =
          (if !(SCell.Possible m).has val then (SResult.Conflict row col, g)
           else elimLoop val (g.setAt row col (SCell.Fixed val)) (sees row col)) := by
        rw [SGrid.set_cell, h]
      cases hh : (SCell.Possible m).has val with
      | true =>
          rw [hh] at hs
          simp only [Bool.not_true, Bool.false_eq_true, if_false] at hs
          refine ⟨⟨?_, ?_⟩, ?_, ?_⟩
          · intro hc
            rw [hs] at hc
            exact absurd hc (elimLoop_ne_conflict val (sees row col) _ row col)
          · rintro (⟨w, hw, _⟩ | ⟨m2, hm2, hhas⟩)
            · exact SCell.noConfusion hw
            · injection hm2 with hm3
              subst hm3
              rw [hh] at hhas
              exact Bool.noConfusion hhas
          · intro hc
            rw [hs] at hc
            exact absurd hc (elimLoop_ne_conflict val (sees row col) _ row col)
          · intro hf
            exact SCell.noConfusion hf
      | false =>
          rw [hh] at hs
          simp only [Bool.not_false, if_true] at hs
          refine ⟨⟨?_, ?_⟩, ?_, ?_⟩
          · intro _
            exact Or.inr ⟨m, rfl, hh⟩
          · intro _
            rw [hs]
          · intro _
            rw [hs]
          · intro hf
            exact SCell.noConfusion hf

/-- C8 witness: at the concrete call set_cell(0, 0, 0) on the default
grid the Conflict branch fires (value 0 is not in the default candidate
mask) and the grid is returned unchanged. -/
theorem C8_witness : (defaultGrid.set_cell 0 0 0).2 = defaultGrid :=
  (C8_set_cell_conflict defaultGrid 0 0 0).2.1 (by decide)

/-- C3 counterexample: on the concrete grid g3 the Hidden Single scan
selects house 9 (column 0), offset 4, value 1; the attempted mutation
set_house(9, 4, 1) lands on cell (4, 1), which is Fixed 2, and returns
Conflict(4, 1); yet the step returns Acted (with the grid unchanged)
rather than Failed(Conflict(4, 1)). -/
theorem C3_counterexample :
    hiddenSingleFind g3 = some (9, 4, 1) ∧
    (g3.set_house 9 4 1).1 = SResult.Conflict 4 1 ∧
    hidden_single_step g3 = (SolveStepResult.Acted, g3) := by decide

/-- C3 amended: NakedSingle returns Failed carrying the exact set_cell
result whenever that result is neither Continue nor Finished, and
solve_grid returns a technique's Failed result unchanged to its caller;
HiddenSingle, however, discards the result of its set_house and returns
Acted unconditionally, even when that result is Conflict or Insoluable. -/
theorem C3_amended :
    (∀ g r c v rr, nsScan g cellsRowMajor = some (r, c, v) →
      (g.set_cell r c v).1 = rr → rr ≠ SResult.Continue → rr ≠ SResult.Finished →
      naked_single_step g = (SolveStepResult.Failed rr, (g.set_cell r c v).2))
    ∧ (∀ fuel techs tnum g t res g2,
        techs.get? tnum = some t → g.done ≠ SResult.Finished →
        t g = (SolveStepResult.Failed res, g2) →
        solve_grid (fuel + 1) techs tnum g = some (SolveStepResult.Failed res, g2))
    ∧ (∀ g h n v, hiddenSingleFind g = some (h, n, v) →
        hidden_single_step g = (SolveStepResult.Acted, (g.set_house h n v).2)) := by
  refine ⟨?_, ?_, ?_⟩
  · intro g r c v rr hfind hres h1 h2
    subst hres
    cases hc : (g.set_cell r c v).1 with
    | Continue => exact absurd hc h1
    | Finished => exact absurd hc h2
    | Conflict a b => simp only [naked_single_step, hfind, hc]
    | Insoluable a b => simp only [naked_single_step, hfind, hc]
  · intro fuel techs tnum g t res g2 hget hdone ht
    have hne : tnum ≠ techs.length := by
      intro he
      rw [he] at hget
      rw [List.get?_eq_none.mpr (Nat.le_refl _)] at hget
      exact Option.noConfusion hget
    simp only [solve_grid]
    rw [if_neg hdone, if_neg hne]
    split
    · next heq =>
        rw [hget] at heq
        exact Option.noConfusion heq
    · next t2 heq =>
        rw [hget] at heq
        injection heq with he2
        subst he2
        split
        · next g3 heq2 =>
            rw [ht] at heq2
            injection heq2 with ha hb
            exact SolveStepResult.noConfusion ha
        · next g3 heq2 =>
            rw [ht] at heq2
            injection heq2 with ha hb
            exact SolveStepResult.noConfusion ha
        · next r2 g3 h1 h2 heq2 =>
            rw [ht] at heq2
            injection heq2 with ha hb
            rw [ha, hb]
  · intro g h n v hfind
    simp only [hidden_single_step, hfind]

/-- C3 witness: the amended statement instantiated at concrete inputs:
the HiddenSingle clause at grid g3 (where the attempted mutation is the
conflicting set_house(9, 4, 1)), and the propagation clause on a
one-technique list whose step fails with Conflict(0, 0). -/
theorem C3_witness :
    hidden_single_step g3 = (SolveStepResult.Acted, (g3.set_house 9 4 1).2) ∧
    solve_grid 1 [failingTech] 0 defaultGrid =
      some (SolveStepResult.Failed (SResult.Conflict 0 0), defaultGrid) :=
  ⟨C3_amended.2.2 g3 9 4 1 (by decide),
   C3_amended.2.1 0 [failingTech] 0 defaultGrid failingTech (SResult.Conflict 0 0)
     defaultGrid rfl (by decide) rfl⟩

/-- C5: in solve_grid, when the technique at the cursor returns Stuck or
Acted and the resulting grid has some cell with zero viable values, the
full-board scan fires and the solve terminates immediately with Stuck
and that grid (never with Insoluable), regardless of what the technique
itself reported. -/
theorem C5_backstop (fuel : Nat) (techs : List (SGrid → SolveStepResult × SGrid))
    (tnum : Nat) (g : SGrid) (t : SGrid → SolveStepResult × SGrid)
    (r : SolveStepResult) (g2 : SGrid)
    (hget : techs.get? tnum = some t) (hdone : g.done ≠ SResult.Finished)
    (ht : t g = (r, g2)) (hr : r = SolveStepResult.Stuck ∨ r = SolveStepResult.Acted)
    (hb : brokenScan g2 = true) :
    solve_grid (fuel + 1) techs tnum g = some (SolveStepResult.Stuck, g2) := by
  have hne : tnum ≠ techs.length := by
    intro he
    rw [he] at hget
    rw [List.get?_eq_none.mpr (Nat.le_refl _)] at hget
    exact Option.noConfusion hget
  simp only [solve_grid]
  rw [if_neg hdone, if_neg hne]
  split
  · next heq =>
      rw [hget] at heq
      exact Option.noConfusion heq
  · next t2 heq =>
      rw [hget] at heq
      injection heq with he2
      subst he2
      rcases hr with rfl | rfl
      · split
        · next g3 heq2 =>
            rw [ht] at heq2
            injection heq2 with ha hb2
            subst hb2
            rw [if_pos hb]
        · next g3 heq2 =>
            rw [ht] at heq2
            injection heq2 with ha hb2
            exact SolveStepResult.noConfusion ha
        · next r2 g3 h1 h2 heq2 =>
            rw [ht] at heq2
            injection heq2 with ha hb2
            exact absurd ha.symm h1
      · split
        · next g3 heq2 =>
            rw [ht] at heq2
            injection heq2 with ha hb2
            exact SolveStepResult.noConfusion ha
        · next g3 heq2 =>
            rw [ht] at heq2
            injection heq2 with ha hb2
            subst hb2
            rw [if_pos hb]
        · next r2 g3 h1 h2 heq2 =>
            rw [ht] at heq2
            injection heq2 with ha hb2
            exact absurd ha.symm h2

/-- C5 witness: a registered technique that reports Stuck after
emptying the candidate set of cell (0, 0) makes solve_grid terminate at
once with Stuck and the broken grid. -/
theorem C5_witness :
    solve_grid 1 [breakingTech] 0 defaultGrid =
      some (SolveStepResult.Stuck, defaultGrid.setAt 0 0 (SCell.Possible 0)) :=
  C5_backstop 0 [breakingTech] 0 defaultGrid breakingTech SolveStepResult.Stuck
    (defaultGrid.setAt 0 0 (SCell.Possible 0)) rfl (by decide) rfl (Or.inl rfl) (by decide)

/-- C10: solve_grid only ever returns Finished, Stuck, or Failed; it
never returns Acted to its caller, so the unreachable arm of the
caller in main.rs can indeed not be taken. -/
theorem C10_no_acted : ∀ (fuel : Nat) (techs : List (SGrid → SolveStepResult × SGrid))
    (tnum : Nat) (g : SGrid) (out : SolveStepResult × SGrid),
    solve_grid fuel techs tnum g = some out → out.1 ≠ SolveStepResult.Acted := by
  intro fuel
  induction fuel with
  | zero =>
      intro techs tnum g out h
      simp [solve_grid] at h
  | succ n ih =>
      intro techs tnum g out h
      rw [solve_grid] at h
      by_cases h1 : g.done = SResult.Finished
      · rw [if_pos h1] at h
        cases h
        simp
      · rw [if_neg h1] at h
        by_cases h2 : tnum = techs.length
        · rw [if_pos h2] at h
          cases h
          simp
        · rw [if_neg h2] at h
          split at h
          · cases h
            simp
          · split at h
            · split at h
              · cases h
                simp
              · exact ih techs (tnum + 1) _ out h
            · split at h
              · cases h
                simp
              · exact ih techs 0 _ out h
            · next r2 g3 hna hnb heq2 =>
                cases h
                intro hacted
                exact hnb hacted

/-- C1: on grid g1, cell (0, 0) can hold 5 while the seen cell (0, 1)
has 5 as its only viable value; set_cell(0, 0, 5) propagates the
elimination, empties cell (0, 1) completely, and still returns
Continue rather than Insoluable(0, 1) - SCell.remove reports success
even when it leaves the cell with zero viable values, so the
Insoluable branch of the propagation loop never fires. -/
theorem C1_insoluable_not_signalled :
    (g1.set_cell 0 0 5).1 = SResult.Continue ∧
    (g1.set_cell 0 0 5).2.cell 0 1 = SCell.Possible 0 := by decide

/-- C2: house_cell_to_row_col maps the column house 9 at offset 0 to
(0, 1), i.e. into column 1, although house(9) reads column 0: on a
grid distinguishing the two cells, house(9)[0] is the cell at (0, 0),
not the cell at the coordinates house_cell_to_row_col returns, because
the column arm computes house - 8 instead of house - 9. -/
theorem C2_house_mapping_mismatch :
    house_cell_to_row_col 9 0 = (0, 1) ∧
    (g2c.house 9).getD 0 defaultCell = g2c.cell 0 0 ∧
    g2c.cell 0 0 ≠ g2c.cell 0 1 := by decide

/-- C4: a reachable state violating the no-conflict invariant.  From
the default grid, eight set_cell calls produce g4b, whose column house
9 has the hidden pair of values 1 and 2 at offsets 0 and 1; the Hidden
Pair step acts, but writes the pair cell through house_cell_to_row_col
into column 1, re-adding candidate 1 to cell (0, 1) although (4, 1) in
the same column is already Fixed 1; the subsequent legal call
set_cell(0, 1, 1) then leaves (0, 1) and (4, 1), two cells that see
each other under the Normal ruleset, both Fixed to the value 1. -/
theorem C4_invariant_violated :
    (hidden_pair_step g4b).1 = SolveStepResult.Acted ∧
    g4.cell 0 1 = SCell.Fixed 1 ∧
    g4.cell 4 1 = SCell.Fixed 1 ∧
    (4, 1) ∈ sees 0 1 := by decide

/-- C6: on grid g6, values 8 and 9 of row house 0 are each possible in
exactly the two cells at offsets 0 and 1, so the claimed behaviour
would reduce cell 0 from 789 to the intersected pair 89 and return
Acted; but the value loops of the source run a in 0..8 and b in
a+1..9, so a pair involving the value 9 is never examined, and the
step returns Stuck leaving the grid unchanged. -/
theorem C6_value_nine_pair_missed :
    hidden_pair_step g6 = (SolveStepResult.Stuck, g6) := by decide

/-- C7: on the all-default grid no value is confined to an overlap
(value 1 of row house 0 is possible in all nine row cells, far beyond
box 0), so under the claimed trigger Pointing would mutate nothing;
the source never tests that confinement (and its fewer-than-3 guard
has an empty body), so the very first scan iteration removes candidate
1 from the six cells of box 0 outside row 0 and returns Acted. -/
theorem C7_pointing_fires_without_trigger :
    pointing_step defaultGrid = (SolveStepResult.Acted, g7) := by decide

/-- C9 counterexample: values() of the Fixed cell with value 0 is the
empty enumeration (the iterator never probes bit 0), refuting the
claim that values() of a Fixed cell is never empty and enumerates
exactly its value. -/
theorem C9_counterexample :
    SCell.possibilities (SCell.Fixed 0) = 0 ∧
    SCell.values (SCell.Fixed 0) = [] := by decide

set_option maxRecDepth 100000 in
/-- C9 amended: for Fixed(v) with v between 1 and 9 (the only fixed
values the program creates), possibilities() is 0 while values()
enumerates exactly the single value v; and for Possible(mask) cells
whose mask is a submask of the default mask 1022 (bits 1 through 9),
possibilities() equals the number of values values() enumerates. -/
theorem C9_amended :
    (∀ v, 1 ≤ v → v ≤ 9 →
      SCell.possibilities (SCell.Fixed v) = 0 ∧ SCell.values (SCell.Fixed v) = [v])
    ∧ (∀ m, m &&& 1022 = m →
      SCell.possibilities (SCell.Possible m) = (SCell.values (SCell.Possible m)).length) := by
  constructor
  · intro v h1 h2
    have aux : ∀ x : Fin 10, 1 ≤ x.val →
        SCell.possibilities (SCell.Fixed x.val) = 0 ∧
        SCell.values (SCell.Fixed x.val) = [x.val] := by decide
    exact aux ⟨v, by omega⟩ h1
  · intro m hm
    have hlt : m < 1024 := by
      have h1 : m &&& 1022 ≤ 1022 := Nat.and_le_right
      omega
    have aux : ∀ x : Fin 1024, x.val &&& 1022 = x.val →
        SCell.possibilities (SCell.Possible x.val) =
          (SCell.values (SCell.Possible x.val)).length := by decide
    exact aux ⟨m, hlt⟩ hm

/-- C9 witness: the amended statement instantiated at the Fixed cell
with value 5 and at the Possible cell with mask 6 (values 1 and 2). -/
theorem C9_witness :
    (SCell.possibilities (SCell.Fixed 5) = 0 ∧ SCell.values (SCell.Fixed 5) = [5]) ∧
    SCell.possibilities (SCell.Possible 6) = (SCell.values (SCell.Possible 6)).length :=
  ⟨C9_amended.1 5 (by decide) (by decide), C9_amended.2 6 (by decide)⟩

/-- C10 witness: on the empty technique list the solver returns Stuck
at once, and the theorem applied at that concrete run yields that the
returned result is not Acted. -/
theorem C10_witness :
    solve_grid 1 [] 0 defaultGrid = some (SolveStepResult.Stuck, defaultGrid) ∧
    (SolveStepResult.Stuck, defaultGrid).1 ≠ SolveStepResult.Acted :=
  ⟨by decide, C10_no_acted 1 [] 0 defaultGrid (SolveStepResult.Stuck, defaultGrid) (by decide)⟩
